import Mathlib

/-!
Verification of the widget dashboard in `src/index.tsx`.

The development shallowly embeds the two stateful cores of the program:

* the layout store: the `activeWidgets : string[]` React state together with
  its mutators `moveWidget`, `removeWidget`, `addWidget`, the
  `localStorage`-backed initializer (`load`) and the persisting effect
  (`persist`), and the render loop that resolves identifiers against the
  static catalog `AVAILABLE_WIDGETS`;
* the asynchronous briefing fetcher of `AIBriefingWidget`
  (`generateBriefing` plus the resolution of its in-flight calls), embedded
  as an explicit event-step function over a small state record.

JavaScript array semantics are modelled faithfully: an array cell can hold
`undefined` (value `JsVal.undef`), reading any out-of-range index yields
`undefined`, writing at index `length` appends, and writing at a negative
index creates an object property and leaves the element sequence unchanged.
-/

/-- Value stored in one cell of the `activeWidgets` JavaScript array: either a
widget-identifier string or JavaScript `undefined` (which out-of-range swap
arguments can write into the array). -/
inductive JsVal where
  | undef
  | str (s : String)
deriving DecidableEq

/-- Embeds the TypeScript `WidgetDef` interface (`src/index.tsx:7`). -/
structure WidgetDef where
  id : String
  type : String
  title : String
  colSpan : Nat
deriving DecidableEq

/-- The static widget catalog (`AVAILABLE_WIDGETS`, `src/index.tsx:42`). -/
def AVAILABLE_WIDGETS : List WidgetDef :=
  [⟨"w-ai", "ai-briefing", "Daily Briefing", 2⟩,
   ⟨"w-stats", "stats", "Overview", 1⟩,
   ⟨"w-activity", "activity", "Recent Activity", 1⟩,
   ⟨"w-saved", "saved", "Saved For Later", 2⟩,
   ⟨"w-timer", "timer", "Focus Timer", 1⟩]

/-- The default layout used by the `useState` initializer when storage is
absent (`src/index.tsx:283`). -/
def defaultWidgets : List String := ["w-ai", "w-stats", "w-activity", "w-saved", "w-timer"]

/-- Coerces a plain identifier sequence into a JavaScript array of strings. -/
def ofIds (ws : List String) : List JsVal := ws.map JsVal.str

/-- JavaScript array read `a[i]`: the element when `0 ≤ i < a.length`,
`undefined` otherwise. -/
def jsGet (l : List JsVal) (i : Int) : JsVal :=
  if 0 ≤ i then l.getD i.toNat JsVal.undef else JsVal.undef

/-- JavaScript array write `a[i] = v`: in range it updates the cell, at
`i = a.length` (or beyond) it extends the array (intermediate cells become
holes, read back as `undefined`), and at a negative index it creates an
object property, leaving the element sequence unchanged. -/
def jsSet (l : List JsVal) (i : Int) (v : JsVal) : List JsVal :=
  if i < 0 then l
  else if i.toNat < l.length then l.set i.toNat v
  else l ++ List.replicate (i.toNat - l.length) JsVal.undef ++ [v]

/-- Direction argument of `moveWidget` (`'left' | 'right'` in the source);
the spec calls the directions `before` / `after`. -/
inductive MoveDir where
  | left
  | right
deriving DecidableEq

/-- The `targetIndex` computed by `moveWidget` (`src/index.tsx:295`). -/
def targetIndexOf (index : Int) : MoveDir → Int
  | .left => index - 1
  | .right => index + 1

/-- Embeds `moveWidget` (`src/index.tsx:293`): if the target index is inside
`[0, length)` it performs the destructuring swap
`[a[index], a[target]] = [a[target], a[index]]` (both reads happen first,
then the write at `index`, then the write at `target`); otherwise the array
is returned unchanged. -/
def moveWidget (l : List JsVal) (index : Int) (direction : MoveDir) : List JsVal :=
  if 0 ≤ targetIndexOf index direction ∧ targetIndexOf index direction < (l.length : Int) then
    jsSet (jsSet l index (jsGet l (targetIndexOf index direction)))
      (targetIndexOf index direction) (jsGet l index)
  else l

/-- Embeds `removeWidget` (`src/index.tsx:303`):
`activeWidgets.filter(wId => wId !== id)`. -/
def removeWidget (l : List JsVal) (id : String) : List JsVal :=
  l.filter (fun w => w ≠ JsVal.str id)

/-- Embeds `addWidget` (`src/index.tsx:307`): appends `id` unless
`activeWidgets.includes(id)` already holds. -/
def addWidget (l : List JsVal) (id : String) : List JsVal :=
  if JsVal.str id ∈ l then l else l ++ [JsVal.str id]

/-- One layout mutation, as reachable from the interface. -/
inductive LayoutOp where
  | move (index : Int) (direction : MoveDir)
  | remove (id : String)
  | add (id : String)

/-- Applies one layout mutation to the identifier sequence. -/
def applyOp (l : List JsVal) : LayoutOp → List JsVal
  | .move i d => moveWidget l i d
  | .remove id => removeWidget l id
  | .add id => addWidget l id

/-- Applies a finite sequence of layout mutations, left to right. -/
def applyOps (l : List JsVal) (ops : List LayoutOp) : List JsVal :=
  ops.foldl applyOp l

/-- The identifier strings occurring in the array, in order; `undefined`
cells carry no identifier. -/
def idsOf (l : List JsVal) : List String :=
  l.filterMap (fun w => match w with | .undef => none | .str s => some s)

/-- A JSON value, the possible results of `JSON.parse`. -/
inductive Json where
  | null
  | bool (b : Bool)
  | num (n : Int)
  | str (s : String)
  | arr (xs : List Json)
  | obj (fields : List (String × Json))

/-- Observation used to state round-trips: reads a JSON value back as an
array of strings when it is one. -/
def asString : Json → Option String
  | .str s => some s
  | _ => none

/-- Reads a list of JSON values back as strings when all of them are strings. -/
def asStrings : List Json → Option (List String)
  | [] => some []
  | j :: rest =>
    match asString j with
    | none => none
    | some s =>
      match asStrings rest with
      | none => none
      | some tail => some (s :: tail)

/-- Reads a JSON value back as an array of strings when it is one. -/
def asStringArray : Json → Option (List String)
  | .arr xs => asStrings xs
  | _ => none

/-- State of the `"dashboard_widgets"` slot of `localStorage`, classified by
how `saved ? JSON.parse(saved) : [...]` (`src/index.tsx:283`) treats it:
the key can be absent (`getItem` returns `null`, falsy), hold the empty
string (also falsy), hold a non-empty string on which `JSON.parse` throws,
or hold a non-empty string parsing to some JSON value. -/
inductive StoredValue where
  | absent
  | emptyStr
  | malformed
  | parsed (j : Json)

/-- Embeds the `useState` initializer (`src/index.tsx:281`): when `saved` is
falsy (key absent or empty string) the default layout is used; otherwise the
result of `JSON.parse(saved)` is used as-is — an invalid JSON string makes
`JSON.parse` throw (modelled as `Except.error ()`), and a value that is not
an array of strings is not detected. -/
def load : StoredValue → Except Unit Json
  | .absent => .ok (Json.arr (defaultWidgets.map Json.str))
  | .emptyStr => .ok (Json.arr (defaultWidgets.map Json.str))
  | .malformed => .error ()
  | .parsed j => .ok j

/-- JSON encoding of one array cell: `JSON.stringify` serializes an
`undefined` array element as `null`. -/
def jsonOfVal : JsVal → Json
  | .undef => .null
  | .str s => .str s

/-- Embeds the persisting effect
`localStorage.setItem("dashboard_widgets", JSON.stringify(activeWidgets))`
(`src/index.tsx:290`): afterwards the slot holds a non-empty string that
parses back to the serialized array. -/
def persist (ws : List JsVal) : StoredValue :=
  .parsed (Json.arr (ws.map jsonOfVal))

/-- The `App` state relevant to layout persistence: the `activeWidgets`
sequence and the `localStorage` slot. -/
structure AppState where
  widgets : List JsVal
  storage : StoredValue

/-- One interface-triggered layout mutation together with the `useEffect`
hook on `[activeWidgets]` (`src/index.tsx:289`) that re-persists the
sequence after the state change commits. -/
def appApply (s : AppState) (op : LayoutOp) : AppState :=
  let ws := applyOp s.widgets op
  ⟨ws, persist ws⟩

/-- The render loop of `App` (`src/index.tsx:356`): each identifier is looked
up with `AVAILABLE_WIDGETS.find(w => w.id === widgetId)`; an identifier with
no catalog entry renders `null` (`if (!def) return null`). The loop is a pure
`map` over `activeWidgets` and calls no state setter. -/
def renderList (ws : List JsVal) : List (Option WidgetDef) :=
  ws.map (fun w => AVAILABLE_WIDGETS.find? (fun d => JsVal.str d.id == w))

/-- The two user-facing message literals of `AIBriefingWidget`
(`src/index.tsx:63` and `src/index.tsx:86`). -/
def apiKeyNotConfiguredMsg : String := "API Key not configured. Please set process.env.API_KEY."

/-- Message shown when the external generation call fails at runtime. -/
def couldNotGenerateMsg : String := "Could not generate briefing at this time."

/-- Environment of the briefing widget: whether `process.env.API_KEY` is set
(and non-empty, since the source tests its truthiness). -/
structure FetchConfig where
  hasApiKey : Bool
deriving DecidableEq

/-- State of one mounted `AIBriefingWidget`: the `briefing` and `loading`
React states (`src/index.tsx:58`), plus the number of `generateContent`
calls currently in flight (not tracked by the source — recorded here to
state claims about overlapping calls). -/
structure FetchState where
  briefing : Option String
  loading : Bool
  inFlight : Nat
deriving DecidableEq

/-- The fresh state of a newly mounted widget. -/
def initFetch : FetchState := ⟨none, false, 0⟩

/-- Events driving one widget instance: a trigger of `generateBriefing`
(the mount `useEffect` at `src/index.tsx:92` or the refresh button at
`src/index.tsx:123`), or the completion of one in-flight call. -/
inductive FetchEvent where
  | trigger
  | resolveSuccess (text : String)
  | resolveFailure

/-- Embeds `generateBriefing` (`src/index.tsx:61`) and the continuation of
its awaited call: a trigger without an API key only sets the message and
returns (`loading` untouched, no call made); with a key it sets
`loading = true` and starts one more call. A completing call writes
`briefing` (response text or the runtime-failure message) and the `finally`
block sets `loading = false`, regardless of other still-running calls. -/
def fetchStep (cfg : FetchConfig) (s : FetchState) : FetchEvent → FetchState
  | .trigger =>
    if cfg.hasApiKey then ⟨s.briefing, true, s.inFlight + 1⟩
    else ⟨some apiKeyNotConfiguredMsg, s.loading, s.inFlight⟩
  | .resolveSuccess t =>
    if s.inFlight = 0 then s else ⟨some t, false, s.inFlight - 1⟩
  | .resolveFailure =>
    if s.inFlight = 0 then s else ⟨some couldNotGenerateMsg, false, s.inFlight - 1⟩

/-- Runs a sequence of fetch events from a state. -/
def fetchRun (cfg : FetchConfig) (s : FetchState) (es : List FetchEvent) : FetchState :=
  es.foldl (fetchStep cfg) s

/-! Helper lemmas about `idsOf`. -/

/-- Unfolding `idsOf` over an `undefined` cell. -/
theorem idsOf_cons_undef (l : List JsVal) : idsOf (JsVal.undef :: l) = idsOf l := rfl

/-- Unfolding `idsOf` over an identifier cell. -/
theorem idsOf_cons_str (s : String) (l : List JsVal) :
    idsOf (JsVal.str s :: l) = s :: idsOf l := rfl

/-- `idsOf` distributes over append. -/
theorem idsOf_append (l₁ l₂ : List JsVal) : idsOf (l₁ ++ l₂) = idsOf l₁ ++ idsOf l₂ :=
  List.filterMap_append l₁ l₂ _

/-- An identifier occurs in `idsOf l` exactly when its cell occurs in `l`. -/
theorem mem_idsOf {a : String} {l : List JsVal} : a ∈ idsOf l ↔ JsVal.str a ∈ l := by
  unfold idsOf
  rw [List.mem_filterMap]
  constructor
  · rintro ⟨w, hw, hfw⟩
    cases w with
    | undef => simp at hfw
    | str s =>
      simp only [Option.some.injEq] at hfw
      subst hfw
      exact hw
  · intro h
    exact ⟨JsVal.str a, h, rfl⟩

/-- `idsOf` is monotone with respect to the sublist order. -/
theorem idsOf_sublist {l₁ l₂ : List JsVal} (h : l₁.Sublist l₂) :
    (idsOf l₁).Sublist (idsOf l₂) :=
  h.filterMap _

/-! Permutation lemmas for the in-place swap performed by `moveWidget`. -/

/-- Replacing the cell at `m` by `a` while consing the old cell in front is a
permutation of consing `a` in front. -/
theorem perm_getD_set (r : List JsVal) :
    ∀ (m : Nat) (a : JsVal), m < r.length →
      List.Perm ((r.getD m JsVal.undef) :: (r.set m a)) (a :: r) := by
  induction r with
  | nil => intro m a h; simp at h
  | cons b r ih =>
    intro m a h
    cases m with
    | zero =>
      simp only [List.getD_cons_zero, List.set_cons_zero]
      exact List.Perm.swap a b r
    | succ k =>
      simp only [List.getD_cons_succ, List.set_cons_succ]
      have hk : k < r.length := by simpa using h
      exact ((List.Perm.swap b _ _).trans (List.Perm.cons b (ih k a hk))).trans
        (List.Perm.swap a b r)

/-- The two-sided in-place swap `(l.set i l[t]).set t l[i]` is a permutation
of `l` when both positions are in range (positions read on the original
list, as in the destructuring assignment of the source). -/
theorem perm_set_set (l : List JsVal) :
    ∀ (it tt : Nat), it < l.length → tt < l.length →
      List.Perm ((l.set it (l.getD tt JsVal.undef)).set tt (l.getD it JsVal.undef)) l := by
  induction l with
  | nil => intro it tt hit _; simp at hit
  | cons a r ih =>
    intro it tt hit htt
    cases it with
    | zero =>
      cases tt with
      | zero => simp
      | succ m =>
        have hm : m < r.length := by simpa using htt
        simpa using perm_getD_set r m a hm
    | succ s =>
      cases tt with
      | zero =>
        have hs : s < r.length := by simpa using hit
        simpa using perm_getD_set r s a hs
      | succ m =>
        have hs : s < r.length := by simpa using hit
        have hm : m < r.length := by simpa using htt
        simpa using List.Perm.cons a (ih s m hs hm)

/-- Writing at position `init.length` of `init ++ y :: rest` replaces `y`. -/
theorem set_append_length (init : List JsVal) :
    ∀ (rest : List JsVal) (y v : JsVal),
      (init ++ y :: rest).set init.length v = init ++ v :: rest := by
  induction init with
  | nil => intro rest y v; rfl
  | cons a r ih =>
    intro rest y v
    simp only [List.cons_append, List.length_cons, List.set_cons_succ, ih]

/-- Reading position `init.length` of `init ++ [a]` yields `a`. -/
theorem getD_append_length (init : List JsVal) :
    ∀ (a d : JsVal), (init ++ [a]).getD init.length d = a := by
  induction init with
  | nil => intro a d; rfl
  | cons b r ih =>
    intro a d
    simp only [List.cons_append, List.length_cons, List.getD_cons_succ, ih]

/-- Blanking one cell never introduces identifiers: the identifiers of
`l.set k undefined` form a sub-permutation of those of `l`. -/
theorem idsOf_set_undef_subperm (l : List JsVal) :
    ∀ (k : Nat), List.Subperm (idsOf (l.set k JsVal.undef)) (idsOf l) := by
  induction l with
  | nil => intro k; exact List.Subperm.refl _
  | cons a r ih =>
    intro k
    cases k with
    | zero =>
      cases a with
      | undef =>
        rw [List.set_cons_zero, idsOf_cons_undef]
      | str s =>
        rw [List.set_cons_zero, idsOf_cons_undef, idsOf_cons_str]
        exact (List.sublist_cons_self s (idsOf r)).subperm
    | succ m =>
      cases a with
      | undef =>
        rw [List.set_cons_succ, idsOf_cons_undef, idsOf_cons_undef]
        exact ih m
      | str s =>
        rw [List.set_cons_succ, idsOf_cons_str, idsOf_cons_str]
        exact (List.subperm_cons s).mpr (ih m)

/-- `moveWidget` never duplicates an identifier: whatever the arguments, the
identifiers of the result form a sub-permutation of those of the input.
In-range swaps permute the array; the out-of-range writes reachable through
the guard (`index = length` with direction `left`, `index = -1` with
direction `right`) drop or blank cells but copy no identifier. -/
theorem idsOf_moveWidget_subperm (l : List JsVal) (i : Int) (d : MoveDir) :
    List.Subperm (idsOf (moveWidget l i d)) (idsOf l) := by
  have hid : i = targetIndexOf i d - 1 ∨ i = targetIndexOf i d + 1 := by
    cases d <;> simp only [targetIndexOf] <;> omega
  by_cases hg : 0 ≤ targetIndexOf i d ∧ targetIndexOf i d < (l.length : Int)
  · unfold moveWidget
    rw [if_pos hg]
    obtain ⟨h0, hn⟩ := hg
    set t : Int := targetIndexOf i d with ht
    by_cases hi1 : i < 0
    · have e1 : jsSet l i (jsGet l t) = l := by rw [jsSet, if_pos hi1]
      have e2 : jsGet l i = JsVal.undef := by rw [jsGet, if_neg (by omega)]
      have e3 : jsSet l t JsVal.undef = l.set t.toNat JsVal.undef := by
        rw [jsSet, if_neg (by omega), if_pos (by omega)]
      rw [e1, e2, e3]
      exact idsOf_set_undef_subperm l t.toNat
    · push_neg at hi1
      by_cases hi2 : i < (l.length : Int)
      · have e1 : jsGet l t = l.getD t.toNat JsVal.undef := by rw [jsGet, if_pos h0]
        have e2 : jsGet l i = l.getD i.toNat JsVal.undef := by rw [jsGet, if_pos hi1]
        have e3 : jsSet l i (l.getD t.toNat JsVal.undef)
            = l.set i.toNat (l.getD t.toNat JsVal.undef) := by
          rw [jsSet, if_neg (by omega), if_pos (by omega)]
        have e4 : jsSet (l.set i.toNat (l.getD t.toNat JsVal.undef)) t
              (l.getD i.toNat JsVal.undef)
            = (l.set i.toNat (l.getD t.toNat JsVal.undef)).set t.toNat
              (l.getD i.toNat JsVal.undef) := by
          rw [jsSet, if_neg (by omega), if_pos (by simp only [List.length_set]; omega)]
        rw [e1, e2, e3, e4]
        exact ((perm_set_set l i.toNat t.toNat (by omega) (by omega)).filterMap _).subperm
      · push_neg at hi2
        have hieq : i = (l.length : Int) := by rcases hid with h | h <;> omega
        have htEq : t = (l.length : Int) - 1 := by rcases hid with h | h <;> omega
        have hn1 : 1 ≤ l.length := by omega
        have e1 : jsGet l t = l.getD t.toNat JsVal.undef := by rw [jsGet, if_pos h0]
        have e2 : jsGet l i = JsVal.undef := by
          rw [jsGet, if_pos (by omega), List.getD_eq_getElem?_getD,
            List.getElem?_eq_none (by omega), Option.getD_none]
        have e3 : ∀ v, jsSet l i v = l ++ [v] := by
          intro v
          rw [jsSet, if_neg (by omega), if_neg (by omega)]
          have hz : i.toNat - l.length = 0 := by omega
          rw [hz]
          simp
        have e4 : ∀ v, jsSet (l ++ [v]) t JsVal.undef
            = (l ++ [v]).set t.toNat JsVal.undef := by
          intro v
          rw [jsSet, if_neg (by omega),
            if_pos (by simp only [List.length_append, List.length_cons, List.length_nil]; omega)]
        rw [e1, e2, e3, e4]
        rcases l.eq_nil_or_concat with rfl | ⟨init, a, rfl⟩
        · simp at hn1
        · rw [List.concat_eq_append] at *
          have hlen : (init ++ [a]).length = init.length + 1 := by simp
          have htt : t.toNat = init.length := by omega
          rw [htt, getD_append_length, List.append_assoc, List.singleton_append,
            set_append_length, idsOf_append, idsOf_append, idsOf_cons_undef]
  · unfold moveWidget
    rw [if_neg hg]

/-- Sub-permutations of duplicate-free lists are duplicate-free. -/
theorem nodup_of_subperm {l₁ l₂ : List String}
    (hs : List.Subperm l₁ l₂) (h : l₂.Nodup) : l₁.Nodup := by
  obtain ⟨m, hperm, hsub⟩ := hs
  exact hperm.nodup (hsub.nodup h)

/-- Every single layout mutation preserves freedom from duplicate
identifiers. -/
theorem nodup_applyOp (l : List JsVal) (op : LayoutOp)
    (h : (idsOf l).Nodup) : (idsOf (applyOp l op)).Nodup := by
  cases op with
  | move i d => exact nodup_of_subperm (idsOf_moveWidget_subperm l i d) h
  | remove id =>
    exact (idsOf_sublist (List.filter_sublist l)).nodup h
  | add id =>
    show (idsOf (addWidget l id)).Nodup
    unfold addWidget
    by_cases hm : JsVal.str id ∈ l
    · rw [if_pos hm]; exact h
    · rw [if_neg hm, idsOf_append, idsOf_cons_str]
      rw [List.nodup_append]
      refine ⟨h, List.nodup_singleton id, ?_⟩
      intro a ha hb
      rcases List.mem_singleton.mp hb with rfl
      exact hm (mem_idsOf.mp ha)

/-- C2: for every starting sequence with no duplicate identifiers and every
finite sequence of `addWidget` / `removeWidget` / `moveWidget` operations
with arbitrary arguments, the resulting identifier sequence contains no
duplicate identifier. -/
theorem layout_ops_no_duplicates (start : List JsVal) (ops : List LayoutOp)
    (h : (idsOf start).Nodup) : (idsOf (applyOps start ops)).Nodup := by
  induction ops generalizing start with
  | nil => exact h
  | cons op rest ih =>
    show (idsOf (applyOps (applyOp start op) rest)).Nodup
    exact ih (applyOp start op) (nodup_applyOp start op h)

/-- Witness for C2 at a concrete input: the default layout is duplicate-free,
and stays so under a concrete operation sequence that exercises all three
mutators (including an out-of-range move). -/
theorem layout_ops_no_duplicates_witness :
    (idsOf (ofIds defaultWidgets)).Nodup ∧
      (idsOf (applyOps (ofIds defaultWidgets)
        [LayoutOp.move 1 MoveDir.right, LayoutOp.remove "w-stats",
         LayoutOp.add "w-stats", LayoutOp.move 5 MoveDir.left])).Nodup :=
  ⟨by decide, layout_ops_no_duplicates _ _ (by decide)⟩

/-- C5: the end-to-end scenario from the default sequence — `moveWidget`
at index 1 towards `after` (source direction `right`) swaps the second and
third widgets, removing `"w-stats"` deletes it, and adding it back appends
it at the end. -/
theorem scenario_move_remove_add :
    moveWidget (ofIds defaultWidgets) 1 MoveDir.right
        = ofIds ["w-ai", "w-activity", "w-stats", "w-saved", "w-timer"] ∧
      removeWidget (ofIds ["w-ai", "w-activity", "w-stats", "w-saved", "w-timer"]) "w-stats"
        = ofIds ["w-ai", "w-activity", "w-saved", "w-timer"] ∧
      addWidget (ofIds ["w-ai", "w-activity", "w-saved", "w-timer"]) "w-stats"
        = ofIds ["w-ai", "w-activity", "w-saved", "w-timer", "w-stats"] := by
  refine ⟨?_, ?_, ?_⟩ <;> decide

/-- Unfolding of `removeWidget` over a cons cell. -/
theorem removeWidget_cons (w : JsVal) (rs : List JsVal) (id : String) :
    removeWidget (w :: rs) id =
      if w = JsVal.str id then removeWidget rs id else w :: removeWidget rs id := by
  simp only [removeWidget, List.filter_cons]
  by_cases h : w = JsVal.str id
  · simp [h]
  · simp [h]

/-- C10: `removeWidget` deletes every occurrence of the identifier: the
remaining identifiers are exactly those different from `id`, in their
original relative order, and `id` is absent afterwards. -/
theorem remove_widget_removes_all (l : List JsVal) (id : String) :
    idsOf (removeWidget l id) = (idsOf l).filter (fun a => a != id) ∧
      id ∉ idsOf (removeWidget l id) := by
  have key : ∀ r : List JsVal,
      idsOf (removeWidget r id) = (idsOf r).filter (fun a => a != id) := by
    intro r
    induction r with
    | nil => rfl
    | cons w rs ih =>
      cases w with
      | undef =>
        rw [removeWidget_cons, if_neg (by simp), idsOf_cons_undef, idsOf_cons_undef, ih]
      | str s =>
        rw [removeWidget_cons, idsOf_cons_str s rs, List.filter_cons]
        by_cases hs : s = id
        · rw [if_pos (by rw [hs]), ih]
          simp [hs]
        · rw [if_neg (by simp [hs]), idsOf_cons_str, ih]
          simp [hs]
  refine ⟨key l, ?_⟩
  rw [key l]
  intro hmem
  have := List.of_mem_filter hmem
  simp at this

/-- C7: `addWidget` appends a missing identifier at the end and is a no-op on
a present one, and `removeWidget` is idempotent — the second removal of the
same identifier changes nothing. -/
theorem add_remove_idempotent (l : List JsVal) (id : String) :
    (JsVal.str id ∈ l → addWidget l id = l) ∧
      (JsVal.str id ∉ l → addWidget l id = l ++ [JsVal.str id]) ∧
      removeWidget (removeWidget l id) id = removeWidget l id := by
  refine ⟨?_, ?_, ?_⟩
  · intro h
    rw [addWidget, if_pos h]
  · intro h
    rw [addWidget, if_neg h]
  · unfold removeWidget
    apply List.filter_eq_self.mpr
    intro w hw
    exact (List.mem_filter.mp hw).2

/-- Witness for C7 on the default layout: adding the present `"w-ai"` is a
no-op, adding the fresh `"w-extra"` appends it, and removing `"w-stats"`
twice equals removing it once. -/
theorem add_remove_idempotent_witness :
    addWidget (ofIds defaultWidgets) "w-ai" = ofIds defaultWidgets ∧
      addWidget (ofIds defaultWidgets) "w-extra"
        = ofIds defaultWidgets ++ [JsVal.str "w-extra"] ∧
      removeWidget (removeWidget (ofIds defaultWidgets) "w-stats") "w-stats"
        = removeWidget (ofIds defaultWidgets) "w-stats" :=
  ⟨(add_remove_idempotent (ofIds defaultWidgets) "w-ai").1 (by decide),
   (add_remove_idempotent (ofIds defaultWidgets) "w-extra").2.1 (by decide),
   (add_remove_idempotent (ofIds defaultWidgets) "w-stats").2.2⟩

/-- `moveWidget` is the identity whenever the guard on the target index
fails. -/
theorem moveWidget_of_not_guard {l : List JsVal} {i : Int} {d : MoveDir}
    (h : ¬(0 ≤ targetIndexOf i d ∧ targetIndexOf i d < (l.length : Int))) :
    moveWidget l i d = l := by
  unfold moveWidget
  rw [if_neg h]

/-- Reading a natural index is a `getD`. -/
theorem jsGet_natCast (l : List JsVal) (k : Nat) :
    jsGet l (k : Int) = l.getD k JsVal.undef := by
  rw [jsGet, if_pos (by omega), Int.toNat_ofNat]

/-- Writing at an in-range natural index is a `set`. -/
theorem jsSet_natCast (l : List JsVal) (k : Nat) (v : JsVal) (h : k < l.length) :
    jsSet l (k : Int) v = l.set k v := by
  rw [jsSet, if_neg (by omega), if_pos (by omega), Int.toNat_ofNat]

/-- C6: the two boundary moves are no-ops; any `moveWidget` call whose
target index falls outside `[0, length)` is a no-op; and a call with both
the index and the target index in range swaps the element at the index with
its neighbor in the given direction. -/
theorem move_adjacent_boundary_and_swap (l : List JsVal) (i : Int) (it tt : Nat) :
    moveWidget l 0 MoveDir.left = l ∧
      moveWidget l ((l.length : Int) - 1) MoveDir.right = l ∧
      (targetIndexOf i MoveDir.right < 0 ∨ (l.length : Int) ≤ targetIndexOf i MoveDir.right →
        moveWidget l i MoveDir.right = l) ∧
      (targetIndexOf i MoveDir.left < 0 ∨ (l.length : Int) ≤ targetIndexOf i MoveDir.left →
        moveWidget l i MoveDir.left = l) ∧
      (it < l.length → tt = it + 1 → tt < l.length →
        moveWidget l (it : Int) MoveDir.right
          = (l.set it (l.getD tt JsVal.undef)).set tt (l.getD it JsVal.undef)) ∧
      (it < l.length → tt + 1 = it →
        moveWidget l (it : Int) MoveDir.left
          = (l.set it (l.getD tt JsVal.undef)).set tt (l.getD it JsVal.undef)) := by
  refine ⟨?_, ?_, ?_, ?_, ?_, ?_⟩
  · exact moveWidget_of_not_guard (by simp only [targetIndexOf]; omega)
  · exact moveWidget_of_not_guard (by simp only [targetIndexOf]; omega)
  · intro h
    exact moveWidget_of_not_guard (by simp only [targetIndexOf] at h ⊢; omega)
  · intro h
    exact moveWidget_of_not_guard (by simp only [targetIndexOf] at h ⊢; omega)
  · intro h1 h2 h3
    have hT : targetIndexOf (it : Int) MoveDir.right = (tt : Int) := by
      simp only [targetIndexOf]; omega
    unfold moveWidget
    rw [if_pos (by rw [hT]; omega), hT, jsGet_natCast, jsGet_natCast,
      jsSet_natCast l it _ h1, jsSet_natCast _ tt _ (by simpa using h3)]
  · intro h1 h2
    have h3 : tt < l.length := by omega
    have hT : targetIndexOf (it : Int) MoveDir.left = (tt : Int) := by
      simp only [targetIndexOf]; omega
    unfold moveWidget
    rw [if_pos (by rw [hT]; omega), hT, jsGet_natCast, jsGet_natCast,
      jsSet_natCast l it _ h1, jsSet_natCast _ tt _ (by simpa using h3)]

/-- Witness for C6 on the default layout: an out-of-range target is a no-op
and in-range moves swap with the neighbor in either direction. -/
theorem move_adjacent_boundary_and_swap_witness :
    moveWidget (ofIds defaultWidgets) 9 MoveDir.right = ofIds defaultWidgets ∧
      moveWidget (ofIds defaultWidgets) 1 MoveDir.right
        = ((ofIds defaultWidgets).set 1 ((ofIds defaultWidgets).getD 2 JsVal.undef)).set 2
            ((ofIds defaultWidgets).getD 1 JsVal.undef) ∧
      moveWidget (ofIds defaultWidgets) 1 MoveDir.left
        = ((ofIds defaultWidgets).set 1 ((ofIds defaultWidgets).getD 0 JsVal.undef)).set 0
            ((ofIds defaultWidgets).getD 1 JsVal.undef) :=
  ⟨(move_adjacent_boundary_and_swap (ofIds defaultWidgets) 9 0 0).2.2.1 (by decide),
   (move_adjacent_boundary_and_swap (ofIds defaultWidgets) 9 1 2).2.2.2.2.1
     (by decide) (by decide) (by decide),
   (move_adjacent_boundary_and_swap (ofIds defaultWidgets) 9 1 0).2.2.2.2.2
     (by decide) (by decide)⟩

/-- C1 counterexample: the layout load is NOT total on all storage states.
A stored non-empty string that is not valid JSON makes `JSON.parse` throw
instead of falling back to the default sequence, and a stored value that is
valid JSON but not an array of strings (here the number `5`) is returned
as-is rather than replaced by the default sequence. -/
theorem load_malformed_counterexample :
    load StoredValue.malformed = Except.error () ∧
      load StoredValue.malformed
          ≠ Except.ok (Json.arr (defaultWidgets.map Json.str)) ∧
      load (StoredValue.parsed (Json.num 5)) = Except.ok (Json.num 5) ∧
      load (StoredValue.parsed (Json.num 5))
          ≠ Except.ok (Json.arr (defaultWidgets.map Json.str)) := by
  refine ⟨rfl, ?_, rfl, ?_⟩
  · intro h
    exact Except.noConfusion h
  · intro h
    injection h with h2
    exact Json.noConfusion h2

/-- C1 amended: when the stored value is absent (or the empty string, which
the truthiness test also sends to the fallback) the load returns the fixed
default sequence; a stored non-empty string that is not valid JSON raises a
parse error; any other stored value is returned exactly as parsed, even when
it is not an array of strings. -/
theorem load_amended :
    load StoredValue.absent = Except.ok (Json.arr (defaultWidgets.map Json.str)) ∧
      load StoredValue.emptyStr = Except.ok (Json.arr (defaultWidgets.map Json.str)) ∧
      load StoredValue.malformed = Except.error () ∧
      (∀ j : Json, load (StoredValue.parsed j) = Except.ok j) :=
  ⟨rfl, rfl, rfl, fun _ => rfl⟩

/-- C8: persisting a (loaded) identifier sequence and loading it back yields
the observably identical sequence; loading from cleared storage yields the
fixed default five-element sequence; and after every mutation the stored
value is exactly the serialization of the current sequence (the `useEffect`
hook persists on each `activeWidgets` change). -/
theorem persist_load_roundtrip :
    (∀ ws : List String,
        load (persist (ofIds ws)) = Except.ok (Json.arr (ws.map Json.str)) ∧
          asStringArray (Json.arr (ws.map Json.str)) = some ws) ∧
      load StoredValue.absent = Except.ok (Json.arr (defaultWidgets.map Json.str)) ∧
      (∀ (s : AppState) (op : LayoutOp),
        (appApply s op).storage = persist ((appApply s op).widgets)) := by
  refine ⟨?_, rfl, fun s op => rfl⟩
  intro ws
  constructor
  · show Except.ok (Json.arr ((ws.map JsVal.str).map jsonOfVal)) = _
    rw [List.map_map]
    rfl
  · show asStrings (ws.map Json.str) = some ws
    induction ws with
    | nil => rfl
    | cons a rest ih =>
      show asStrings (Json.str a :: rest.map Json.str) = some (a :: rest)
      unfold asStrings
      rw [ih]
      rfl

/-- C4: mounting the briefing widget with no configured API key sets the
"not configured" message and returns immediately: `loading` stays `false`
(the `Loading` state is never entered), no external call is started, and the
"not configured" message differs from the runtime-failure message. -/
theorem mount_without_key_short_circuits :
    fetchStep ⟨false⟩ initFetch FetchEvent.trigger
        = ⟨some apiKeyNotConfiguredMsg, false, 0⟩ ∧
      apiKeyNotConfiguredMsg ≠ couldNotGenerateMsg := by
  refine ⟨rfl, ?_⟩
  decide

/-- C3 counterexample: after the automatic trigger on mount the machine is
`Loading`, yet a second trigger (the refresh button) is NOT a no-op — it
changes the state and starts a second call, so two calls are in flight at
once in a reachable state. -/
theorem retrigger_while_loading_counterexample :
    (fetchRun ⟨true⟩ initFetch [FetchEvent.trigger]).loading = true ∧
      fetchStep ⟨true⟩ (fetchRun ⟨true⟩ initFetch [FetchEvent.trigger]) FetchEvent.trigger
          ≠ fetchRun ⟨true⟩ initFetch [FetchEvent.trigger] ∧
      (fetchRun ⟨true⟩ initFetch [FetchEvent.trigger, FetchEvent.trigger]).inFlight = 2 := by
  refine ⟨rfl, ?_, rfl⟩
  decide

/-- C3 amended: `generateBriefing` has no guard on `loading`, so a re-trigger
requested while the machine is already `Loading` is accepted: it keeps the
machine in `Loading`, leaves the displayed content unchanged, and starts one
additional external call — overlapping in-flight calls are possible. -/
theorem retrigger_while_loading_starts_call (cfg : FetchConfig) (s : FetchState)
    (hkey : cfg.hasApiKey = true) (_hload : s.loading = true) :
    (fetchStep cfg s FetchEvent.trigger).loading = true ∧
      (fetchStep cfg s FetchEvent.trigger).briefing = s.briefing ∧
      (fetchStep cfg s FetchEvent.trigger).inFlight = s.inFlight + 1 := by
  simp [fetchStep, hkey]

/-- Witness for the amended C3 at the concrete post-mount state. -/
theorem retrigger_while_loading_starts_call_witness :
    (⟨true⟩ : FetchConfig).hasApiKey = true ∧
      (⟨none, true, 1⟩ : FetchState).loading = true ∧
      (fetchStep ⟨true⟩ ⟨none, true, 1⟩ FetchEvent.trigger).inFlight = 2 :=
  ⟨rfl, rfl, (retrigger_while_loading_starts_call ⟨true⟩ ⟨none, true, 1⟩ rfl rfl).2.2⟩

/-- C9: an identifier in the sequence that resolves to no catalog entry is
skipped by the render loop — its grid cell is `null` — without any error and
without touching the sequence: `renderList` is a pure function of
`activeWidgets` (the render path calls no state setter), the rendered list
keeps one (null) slot per identifier, and the identifier is still in the
sequence being rendered. -/
theorem render_skips_unresolved (ws : List JsVal) (i : Nat) (w : JsVal)
    (hw : ws[i]? = some w)
    (hnr : w ∉ AVAILABLE_WIDGETS.map (fun d => JsVal.str d.id)) :
    (renderList ws)[i]? = some none ∧
      (renderList ws).length = ws.length ∧ w ∈ ws := by
  refine ⟨?_, List.length_map ws _, List.getElem?_mem hw⟩
  unfold renderList
  rw [List.getElem?_map, hw, Option.map_some']
  have hfind : AVAILABLE_WIDGETS.find? (fun d => JsVal.str d.id == w) = none := by
    rw [List.find?_eq_none]
    intro d hd hbeq
    exact hnr (List.mem_map.mpr ⟨d, hd, eq_of_beq hbeq⟩)
  rw [hfind]

/-- Witness for C9: a sequence holding the stale identifier `"w-gone"`
renders a null slot for it while `"w-gone"` stays in the sequence. -/
theorem render_skips_unresolved_witness :
    (renderList [JsVal.str "w-ai", JsVal.str "w-gone"])[1]? = some none ∧
      (renderList [JsVal.str "w-ai", JsVal.str "w-gone"]).length = 2 ∧
      JsVal.str "w-gone" ∈ [JsVal.str "w-ai", JsVal.str "w-gone"] :=
  render_skips_unresolved [JsVal.str "w-ai", JsVal.str "w-gone"] 1 (JsVal.str "w-gone")
    (by decide) (by decide)
